import Mathlib

/-!
Verification of the tipsy chaos-engineering tool against its
natural-language specification.  The definitions below are a shallow
embedding of the Go sources: pure data is translated to Lean structures,
the Kubernetes API surface and the filesystem are abstracted into
explicit oracle parameters, and every loop becomes structural recursion.
Machine maps (Go `map[string]string`) are modelled as canonical
association lists, so Go `reflect.DeepEqual` on actions coincides with
Lean structural equality.
-/

namespace Tipsy

/-- ChaosAction mirrors `state.ChaosAction`: the unit of persisted
history.  The Go field `Namespace` is called `ns` here because the Go
name is a reserved word in Lean; `metadata` is the string-keyed map,
modelled as a canonical association list. -/
structure ChaosAction where
  type : String
  targetPod : String
  ns : String
  timestamp : String
  metadata : List (String × String)
deriving DecidableEq, Repr

/-- filterActions mirrors `rollback.filterActions`: keep an action when
it passes the (possibly empty) type filter and the (possibly empty) pod
filter; an empty filter string disables that axis. -/
def filterActions (actions : List ChaosAction) (filterType filterPod : String) :
    List ChaosAction :=
  match actions with
  | [] => []
  | a :: rest =>
    if filterType ≠ "" ∧ a.type ≠ filterType then
      filterActions rest filterType filterPod
    else if filterPod ≠ "" ∧ a.targetPod ≠ filterPod then
      filterActions rest filterType filterPod
    else
      a :: filterActions rest filterType filterPod

lemma filterActions_nil (ft fp : String) : filterActions [] ft fp = [] := rfl

lemma filterActions_cons (a : ChaosAction) (rest : List ChaosAction) (ft fp : String) :
    filterActions (a :: rest) ft fp =
      if ft ≠ "" ∧ a.type ≠ ft then filterActions rest ft fp
      else if fp ≠ "" ∧ a.targetPod ≠ fp then filterActions rest ft fp
      else a :: filterActions rest ft fp := rfl

lemma filterActions_empty_filters (actions : List ChaosAction) :
    filterActions actions "" "" = actions := by
  induction actions with
  | nil => rfl
  | cons a rest ih =>
    rw [filterActions_cons]
    simp [ih]

lemma filterActions_type_only (actions : List ChaosAction) (ft : String) (h : ft ≠ "") :
    filterActions actions ft "" = actions.filter (fun a => a.type == ft) := by
  induction actions with
  | nil => rfl
  | cons a rest ih =>
    rw [filterActions_cons]
    by_cases hty : a.type = ft
    · simp [hty, ih, List.filter_cons]
    · simp [h, hty, ih, List.filter_cons]

lemma filterActions_pod_only (actions : List ChaosAction) (fp : String) (h : fp ≠ "") :
    filterActions actions "" fp = actions.filter (fun a => a.targetPod == fp) := by
  induction actions with
  | nil => rfl
  | cons a rest ih =>
    rw [filterActions_cons]
    by_cases hpd : a.targetPod = fp
    · simp [hpd, ih, List.filter_cons]
    · simp [h, hpd, ih, List.filter_cons]

lemma filterActions_both (actions : List ChaosAction) (ft fp : String)
    (hft : ft ≠ "") (hfp : fp ≠ "") :
    filterActions actions ft fp =
      actions.filter (fun a => a.type == ft && a.targetPod == fp) := by
  induction actions with
  | nil => rfl
  | cons a rest ih =>
    rw [filterActions_cons]
    by_cases hty : a.type = ft
    · by_cases hpd : a.targetPod = fp
      · simp [hty, hpd, ih, List.filter_cons]
      · simp [hty, hfp, hpd, ih, List.filter_cons]
    · simp [hft, hty, ih, List.filter_cons]

/-- C6: rollback filtering with both filters empty returns all actions in
order; a non-empty type filter keeps exactly the actions of that type; a
non-empty pod filter keeps exactly the actions targeting that pod; with
both non-empty the result is the intersection (AND semantics). -/
theorem C6_filter_semantics (actions : List ChaosAction) (ft fp : String) :
    filterActions actions "" "" = actions ∧
    (ft ≠ "" → filterActions actions ft "" =
      actions.filter (fun a => a.type == ft)) ∧
    (fp ≠ "" → filterActions actions "" fp =
      actions.filter (fun a => a.targetPod == fp)) ∧
    (ft ≠ "" → fp ≠ "" → filterActions actions ft fp =
      actions.filter (fun a => a.type == ft && a.targetPod == fp)) :=
  ⟨filterActions_empty_filters actions,
   fun h => filterActions_type_only actions ft h,
   fun h => filterActions_pod_only actions fp h,
   fun h1 h2 => filterActions_both actions ft fp h1 h2⟩

/-- Sample ledger used by the closed witnesses below. -/
def sampleActions : List ChaosAction :=
  [ ⟨"latency", "pod1", "default", "2023-01-01T00:00:00Z", [("delay", "200ms")]⟩,
    ⟨"cpustress", "pod2", "default", "2023-01-01T00:01:00Z", [("method", "stress-ng")]⟩,
    ⟨"latency", "pod3", "production", "2023-01-01T00:02:00Z", []⟩,
    ⟨"misroute", "service1", "default", "2023-01-01T00:03:00Z", []⟩ ]

/-- Witness for C6 at a concrete four-action ledger. -/
theorem C6_filter_semantics_witness :
    filterActions sampleActions "" "" = sampleActions ∧
    filterActions sampleActions "latency" "" =
      sampleActions.filter (fun a => a.type == "latency") ∧
    filterActions sampleActions "" "pod2" =
      sampleActions.filter (fun a => a.targetPod == "pod2") ∧
    filterActions sampleActions "latency" "pod1" =
      sampleActions.filter (fun a => a.type == "latency" && a.targetPod == "pod1") := by
  obtain ⟨h1, h2, h3, h4⟩ := C6_filter_semantics sampleActions "latency" "pod1"
  refine ⟨h1, ?_, ?_, h4 (by decide) (by decide)⟩
  · exact (C6_filter_semantics sampleActions "latency" "pod2").2.1 (by decide)
  · exact (C6_filter_semantics sampleActions "latency" "pod2").2.2.1 (by decide)

/-! ## Timestamps

Go fills missing timestamps with `time.Now().UTC().Format(time.RFC3339)`,
which for a UTC clock renders as `YYYY-MM-DDThh:mm:ssZ`.  The wall clock
is modelled as a structured `DateTime`, and the formatter below is the
shallow embedding of that rendering. -/

/-- A wall-clock instant as used by `time.Now().UTC()`. -/
structure DateTime where
  year : Nat
  month : Nat
  day : Nat
  hour : Nat
  minute : Nat
  second : Nat
deriving DecidableEq, Repr

/-- Decimal digit character of `n % 10`. -/
def digit (n : Nat) : Char :=
  match n % 10 with
  | 0 => '0'
  | 1 => '1'
  | 2 => '2'
  | 3 => '3'
  | 4 => '4'
  | 5 => '5'
  | 6 => '6'
  | 7 => '7'
  | 8 => '8'
  | 9 => '9'
  | _ => '0'

lemma digit_isDigit (n : Nat) : (digit n).isDigit = true := by
  unfold digit
  have h : n % 10 < 10 := Nat.mod_lt _ (by decide)
  obtain ⟨m, hm⟩ : ∃ m, n % 10 = m := ⟨_, rfl⟩
  rw [hm] at h ⊢
  interval_cases m <;> rfl

/-- formatRFC3339 mirrors Go `Format(time.RFC3339)` on a UTC time:
the fixed 20-character layout `YYYY-MM-DDThh:mm:ssZ`. -/
def formatRFC3339 (t : DateTime) : String :=
  ⟨[digit (t.year / 1000), digit (t.year / 100), digit (t.year / 10), digit t.year, '-',
    digit (t.month / 10), digit t.month, '-',
    digit (t.day / 10), digit t.day, 'T',
    digit (t.hour / 10), digit t.hour, ':',
    digit (t.minute / 10), digit t.minute, ':',
    digit (t.second / 10), digit t.second, 'Z']⟩

/-- Structural check that a string has the RFC3339 UTC shape
`YYYY-MM-DDThh:mm:ssZ`: what `time.Parse(time.RFC3339, s)` requires of
the layout (digit positions and literal separators). -/
def isRFC3339 (s : String) : Bool :=
  match s.toList with
  | [y1, y2, y3, y4, d1, m1, m2, d2, dd1, dd2, tSep, h1, h2, c1, mi1, mi2, c2, s1, s2, z] =>
    y1.isDigit && y2.isDigit && y3.isDigit && y4.isDigit && d1 == '-' &&
    m1.isDigit && m2.isDigit && d2 == '-' &&
    dd1.isDigit && dd2.isDigit && tSep == 'T' &&
    h1.isDigit && h2.isDigit && c1 == ':' &&
    mi1.isDigit && mi2.isDigit && c2 == ':' &&
    s1.isDigit && s2.isDigit && z == 'Z'
  | _ => false

lemma isRFC3339_format (t : DateTime) : isRFC3339 (formatRFC3339 t) = true := by
  simp [isRFC3339, formatRFC3339, String.toList, digit_isDigit]

lemma formatRFC3339_ne_empty (t : DateTime) : formatRFC3339 t ≠ "" := by
  intro h
  have : (formatRFC3339 t).toList = ("" : String).toList := by rw [h]
  simp [formatRFC3339, String.toList] at this

/-! ## The action ledger (`state` package)

The ledger file is modelled as `Option β`: `none` is an absent file and
`some data` a file with raw contents `data`.  The JSON layer
(`json.MarshalIndent` / `json.Unmarshal`) is abstracted into a codec
given by `marshal`, `unmarshal` and an `isEmptyData` test; the theorems
assume the round-trip laws that Go's `encoding/json` satisfies for this
type, namely `unmarshal (marshal l) = .ok l` and that a marshalled
pretty-printed array is never the empty byte string.  `marshal` stands
for the 2-space pretty-printed JSON array rendering. -/

section Ledger

variable {β : Type}

/-- fillTimestamp mirrors the start of `state.SaveAction`: auto-fill the
timestamp with the RFC3339 rendering of the current UTC time when it is
empty. -/
def fillTimestamp (now : DateTime) (a : ChaosAction) : ChaosAction :=
  if a.timestamp = "" then { a with timestamp := formatRFC3339 now } else a

/-- loadActions mirrors `state.loadActions`: an absent file and a
zero-length file both load as the empty list; otherwise the raw contents
are unmarshalled, propagating a parse error. -/
def loadActions (unmarshal : β → Except String (List ChaosAction))
    (isEmptyData : β → Bool) (file : Option β) : Except String (List ChaosAction) :=
  match file with
  | none => .ok []
  | some data => if isEmptyData data then .ok [] else unmarshal data

/-- SaveAction mirrors `state.SaveAction`: fill the timestamp, load the
existing actions (propagating a load failure), append the new action and
rewrite the whole file as a marshalled (pretty-printed JSON) array. -/
def SaveAction (marshal : List ChaosAction → β)
    (unmarshal : β → Except String (List ChaosAction)) (isEmptyData : β → Bool)
    (now : DateTime) (a : ChaosAction) (file : Option β) : Except String (Option β) :=
  let a' := fillTimestamp now a
  match loadActions unmarshal isEmptyData file with
  | .error e => .error ("failed to load existing actions: " ++ e)
  | .ok actions => .ok (some (marshal (actions ++ [a'])))

/-- Modelled from the spec: `state.DeleteAction` is absent from this
snapshot (only its tests and its call site in the rollback engine are
present).  Per the spec, deletion removes the first entry that is deeply
equal to the argument across every field; this helper returns `none`
when no exactly-equal entry exists. -/
def deleteFirstEqual (l : List ChaosAction) (a : ChaosAction) :
    Option (List ChaosAction) :=
  match l with
  | [] => none
  | x :: rest =>
    if x = a then some rest
    else (deleteFirstEqual rest a).map (fun r => x :: r)

/-- Modelled from the spec: `DeleteAction` loads the ledger, removes the
first entry deeply equal to `a` and rewrites the file, or fails with a
not-found error leaving the file unchanged when no exact match exists. -/
def DeleteAction (marshal : List ChaosAction → β)
    (unmarshal : β → Except String (List ChaosAction)) (isEmptyData : β → Bool)
    (a : ChaosAction) (file : Option β) : Except String (Option β) :=
  match loadActions unmarshal isEmptyData file with
  | .error e => .error ("failed to load actions: " ++ e)
  | .ok actions =>
    match deleteFirstEqual actions a with
    | none => .error "action not found in state"
    | some rest => .ok (some (marshal rest))

lemma deleteFirstEqual_append_not_mem (pre post : List ChaosAction) (a : ChaosAction)
    (h : a ∉ pre) : deleteFirstEqual (pre ++ a :: post) a = some (pre ++ post) := by
  induction pre with
  | nil => simp [deleteFirstEqual]
  | cons x rest ih =>
    have hxa : x ≠ a := fun hx => h (hx ▸ List.mem_cons_self x rest)
    have hrest : a ∉ rest := fun hr => h (List.mem_cons_of_mem x hr)
    simp [deleteFirstEqual, hxa, ih hrest]

lemma deleteFirstEqual_not_mem (l : List ChaosAction) (a : ChaosAction)
    (h : a ∉ l) : deleteFirstEqual l a = none := by
  induction l with
  | nil => rfl
  | cons x rest ih =>
    have hxa : x ≠ a := fun hx => h (hx ▸ List.mem_cons_self x rest)
    have hrest : a ∉ rest := fun hr => h (List.mem_cons_of_mem x hr)
    simp [deleteFirstEqual, hxa, ih hrest]

/-- C4: saving an action and loading the ledger back yields the old
actions unchanged and in order, followed by the saved action; an empty
timestamp is auto-filled with a non-empty RFC3339 UTC timestamp, a
non-empty one is kept; the file is rewritten as one marshalled
(pretty-printed JSON) array of the whole list. -/
theorem C4_save_load_round_trip
    (marshal : List ChaosAction → β)
    (unmarshal : β → Except String (List ChaosAction)) (isEmptyData : β → Bool)
    (now : DateTime) (a : ChaosAction) (file : Option β) (prev : List ChaosAction)
    (hrt : ∀ l, unmarshal (marshal l) = .ok l)
    (hne : ∀ l, isEmptyData (marshal l) = false)
    (hload : loadActions unmarshal isEmptyData file = .ok prev) :
    SaveAction marshal unmarshal isEmptyData now a file =
      .ok (some (marshal (prev ++ [fillTimestamp now a]))) ∧
    loadActions unmarshal isEmptyData (some (marshal (prev ++ [fillTimestamp now a]))) =
      .ok (prev ++ [fillTimestamp now a]) ∧
    (a.timestamp = "" →
      fillTimestamp now a = { a with timestamp := formatRFC3339 now } ∧
      (fillTimestamp now a).timestamp ≠ "" ∧
      isRFC3339 (fillTimestamp now a).timestamp = true) ∧
    (a.timestamp ≠ "" → fillTimestamp now a = a) := by
  refine ⟨?_, ?_, ?_, ?_⟩
  · simp [SaveAction, hload]
  · simp [loadActions, hne, hrt]
  · intro hts
    refine ⟨by simp [fillTimestamp, hts], ?_, ?_⟩
    · simp [fillTimestamp, hts]
      exact formatRFC3339_ne_empty now
    · simp [fillTimestamp, hts, isRFC3339_format]
  · intro hts
    simp [fillTimestamp, hts]

/-- C5: loading returns the empty list (not an error) for an absent or
zero-length file, and propagates the parse error exactly (never an empty
or partial list) when the contents are non-empty and fail to
unmarshal. -/
theorem C5_load_absent_empty_malformed
    (unmarshal : β → Except String (List ChaosAction)) (isEmptyData : β → Bool)
    (d : β) (e : String) :
    loadActions unmarshal isEmptyData none = .ok [] ∧
    (isEmptyData d = true → loadActions unmarshal isEmptyData (some d) = .ok []) ∧
    (isEmptyData d = false → unmarshal d = .error e →
      loadActions unmarshal isEmptyData (some d) = .error e) := by
  refine ⟨rfl, ?_, ?_⟩
  · intro h
    simp [loadActions, h]
  · intro h hu
    simp [loadActions, h, hu]

/-- C2: deleting by value removes the first stored entry that is deeply
equal to the argument across every field, errors leaving the ledger
unchanged when no exactly-equal entry exists, and for two saved actions
identical except for timestamp, deleting one by value leaves exactly the
other. -/
theorem C2_delete_by_deep_equality
    (marshal : List ChaosAction → β)
    (unmarshal : β → Except String (List ChaosAction)) (isEmptyData : β → Bool)
    (a : ChaosAction) (file : Option β)
    (hrt : ∀ l, unmarshal (marshal l) = .ok l)
    (hne : ∀ l, isEmptyData (marshal l) = false) :
    (∀ pre post : List ChaosAction, a ∉ pre →
      loadActions unmarshal isEmptyData file = .ok (pre ++ a :: post) →
      DeleteAction marshal unmarshal isEmptyData a file =
        .ok (some (marshal (pre ++ post))) ∧
      loadActions unmarshal isEmptyData (some (marshal (pre ++ post))) =
        .ok (pre ++ post)) ∧
    (∀ l : List ChaosAction, a ∉ l →
      loadActions unmarshal isEmptyData file = .ok l →
      DeleteAction marshal unmarshal isEmptyData a file =
        .error "action not found in state") ∧
    (∀ b : ChaosAction, b.type = a.type → b.targetPod = a.targetPod →
      b.ns = a.ns → b.metadata = a.metadata → b.timestamp ≠ a.timestamp →
      loadActions unmarshal isEmptyData file = .ok [a, b] →
      DeleteAction marshal unmarshal isEmptyData a file = .ok (some (marshal [b])) ∧
      loadActions unmarshal isEmptyData (some (marshal [b])) = .ok [b] ∧
      b ≠ a) := by
  refine ⟨?_, ?_, ?_⟩
  · intro pre post hpre hload
    refine ⟨?_, ?_⟩
    · simp [DeleteAction, hload, deleteFirstEqual_append_not_mem pre post a hpre]
    · simp [loadActions, hne, hrt]
  · intro l hmem hload
    simp [DeleteAction, hload, deleteFirstEqual_not_mem l a hmem]
  · intro b _ _ _ _ hts hload
    refine ⟨?_, ?_, ?_⟩
    · simp [DeleteAction, hload, deleteFirstEqual]
    · simp [loadActions, hne, hrt]
    · intro hb
      exact hts (congrArg ChaosAction.timestamp hb)

/-! Concrete codec used by the witnesses for the ledger theorems: the
raw bytes of a file are represented by `Option (List ChaosAction)`,
where `none` stands for contents that are not a valid JSON array. -/

/-- Witness codec: marshalling always produces parseable contents. -/
def witMarshal : List ChaosAction → Option (List ChaosAction) := some

/-- Witness codec: unmarshalling fails exactly on non-parseable bytes. -/
def witUnmarshal : Option (List ChaosAction) → Except String (List ChaosAction)
  | some l => .ok l
  | none => .error "failed to unmarshal state file"

/-- Witness codec: marshalled contents are never the empty byte string. -/
def witIsEmptyData : Option (List ChaosAction) → Bool := fun _ => false

/-- Sample action with an empty timestamp, for the round-trip witness. -/
def actNoTs : ChaosAction := ⟨"latency", "pod1", "default", "", [("delay", "200ms")]⟩

/-- Sample clock value for the round-trip witness. -/
def now0 : DateTime := ⟨2023, 1, 2, 3, 4, 5⟩

/-- Witness for C4 at a one-action file and an action with an empty
timestamp. -/
theorem C4_save_load_round_trip_witness :
    SaveAction witMarshal witUnmarshal witIsEmptyData now0 actNoTs
        (some (witMarshal sampleActions)) =
      .ok (some (witMarshal (sampleActions ++ [fillTimestamp now0 actNoTs]))) ∧
    loadActions witUnmarshal witIsEmptyData
        (some (witMarshal (sampleActions ++ [fillTimestamp now0 actNoTs]))) =
      .ok (sampleActions ++ [fillTimestamp now0 actNoTs]) ∧
    (actNoTs.timestamp = "" →
      fillTimestamp now0 actNoTs = { actNoTs with timestamp := formatRFC3339 now0 } ∧
      (fillTimestamp now0 actNoTs).timestamp ≠ "" ∧
      isRFC3339 (fillTimestamp now0 actNoTs).timestamp = true) ∧
    (actNoTs.timestamp ≠ "" → fillTimestamp now0 actNoTs = actNoTs) :=
  C4_save_load_round_trip witMarshal witUnmarshal witIsEmptyData now0 actNoTs
    (some (witMarshal sampleActions)) sampleActions
    (fun _ => rfl) (fun _ => rfl) rfl

/-- Witness for C5 at concrete malformed contents. -/
theorem C5_load_absent_empty_malformed_witness :
    loadActions witUnmarshal witIsEmptyData none = .ok [] ∧
    (witIsEmptyData none = true →
      loadActions witUnmarshal witIsEmptyData (some none) = .ok []) ∧
    (witIsEmptyData none = false →
      witUnmarshal none = .error "failed to unmarshal state file" →
      loadActions witUnmarshal witIsEmptyData (some none) =
        .error "failed to unmarshal state file") :=
  C5_load_absent_empty_malformed witUnmarshal witIsEmptyData none
    "failed to unmarshal state file"

/-- Twin of `actNoTs` differing only in timestamp, for the deletion
witness. -/
def actTsA : ChaosAction := ⟨"latency", "pod1", "default", "2023-01-01T00:00:00Z", [("delay", "200ms")]⟩

/-- Second twin differing from `actTsA` only in timestamp. -/
def actTsB : ChaosAction := ⟨"latency", "pod1", "default", "2023-01-01T00:01:00Z", [("delay", "200ms")]⟩

/-- Witness for C2: deleting `actTsA` from the two-element ledger
holding both timestamp twins leaves exactly `actTsB`. -/
theorem C2_delete_by_deep_equality_witness :
    DeleteAction witMarshal witUnmarshal witIsEmptyData actTsA
        (some (witMarshal [actTsA, actTsB])) = .ok (some (witMarshal [actTsB])) ∧
    loadActions witUnmarshal witIsEmptyData (some (witMarshal [actTsB])) = .ok [actTsB] ∧
    actTsB ≠ actTsA :=
  (C2_delete_by_deep_equality witMarshal witUnmarshal witIsEmptyData actTsA
      (some (witMarshal [actTsA, actTsB])) (fun _ => rfl) (fun _ => rfl)).2.2
    actTsB rfl rfl rfl rfl (by decide) rfl

end Ledger

/-! ## Kubernetes objects

Just the fields of the `corev1` types that the tipsy core reads or
writes. -/

/-- Resource requests and limits attached to an ephemeral container. -/
structure StressResources where
  requestsCpu : String
  requestsMemory : String
  limitsCpu : String
  limitsMemory : String
deriving DecidableEq, Repr

/-- An ephemeral container: name, image, command and optional
resources. -/
structure EphemeralContainer where
  name : String
  image : String
  command : List String
  resources : Option StressResources
deriving DecidableEq, Repr

/-- A pod condition (`corev1.PodCondition`): a type string and a status
string such as True or False. -/
structure PodCondition where
  condType : String
  status : String
deriving DecidableEq, Repr

/-- The slice of `corev1.Pod` that tipsy reads. -/
structure Pod where
  name : String
  ns : String
  uid : String
  phase : String
  podIP : String
  conditions : List PodCondition
  ephemeralContainers : List EphemeralContainer
deriving DecidableEq, Repr

/-- An endpoint address (`corev1.EndpointAddress`): the pod IP and its
target reference. -/
structure EndpointAddress where
  ip : String
  targetName : String
  targetNs : String
  targetUid : String
deriving DecidableEq, Repr

/-- An endpoint port copied from the service port list. -/
structure EndpointPort where
  name : String
  port : Int
  protocol : String
deriving DecidableEq, Repr

/-- An endpoint subset: ready addresses, not-ready addresses and
ports. -/
structure EndpointSubset where
  addresses : List EndpointAddress
  notReadyAddresses : List EndpointAddress
  ports : List EndpointPort
deriving DecidableEq, Repr

/-- The slice of `corev1.Endpoints` that tipsy reads and writes. -/
structure Endpoints where
  subsets : List EndpointSubset
deriving DecidableEq, Repr

/-- A service port (`corev1.ServicePort`). -/
structure ServicePort where
  name : String
  port : Int
  protocol : String
deriving DecidableEq, Repr

/-! Substring containment, mirroring Go `strings.Contains`. -/

/-- Character-list analogue of Go `strings.HasPrefix`. -/
def charsStartWith : List Char → List Char → Bool
  | _, [] => true
  | [], _ :: _ => false
  | c :: cs, p :: ps => c == p && charsStartWith cs ps

/-- Character-list analogue of Go `strings.Contains`. -/
def charsContain (s pat : List Char) : Bool :=
  match s with
  | [] => charsStartWith [] pat
  | _ :: rest => charsStartWith s pat || charsContain rest pat

/-- strContains mirrors Go `strings.Contains`. -/
def strContains (s pat : String) : Bool :=
  charsContain s.toList pat.toList

/-! ## Rollback engine (`rollback` package)

The Kubernetes client and the filesystem seen by the rollback engine are
abstracted into `RollbackEnv`: pod lookup, the outcome of each
ephemeral-container removal patch, backup-file reads, the outcome of the
endpoints update, and the home directory used to reconstruct backup
paths. -/

/-- The environment (Kubernetes API plus filesystem) the rollback engine
runs against. -/
structure RollbackEnv where
  getPod : String → String → Except String Pod
  patchRemoveFails : String → String → String → Bool
  readBackup : String → Except String Endpoints
  updateFails : String → Endpoints → Bool
  homeDir : String

/-- Container-name test used by `RevertTC`: latency or packetloss
injector names, or the generic tipsy marker. -/
def tcMatches (c : EphemeralContainer) : Bool :=
  strContains c.name "latency-injector" ||
  strContains c.name "packetloss-injector" ||
  strContains c.name "tipsy-"

/-- Container-name test used by `RemoveEphemeral`: the CPU-stress name
or the generic tipsy marker. -/
def cpuMatches (c : EphemeralContainer) : Bool :=
  strContains c.name "tipsy-cpu-stress" || strContains c.name "tipsy-"

instance exceptDecEq {ε α : Type} [DecidableEq ε] [DecidableEq α] :
    DecidableEq (Except ε α) := fun x y =>
  match x, y with
  | .ok a, .ok b =>
    decidable_of_iff (a = b) ⟨fun h => h ▸ rfl, fun h => Except.ok.inj h⟩
  | .error a, .error b =>
    decidable_of_iff (a = b) ⟨fun h => h ▸ rfl, fun h => Except.error.inj h⟩
  | .ok _, .error _ => isFalse (fun h => Except.noConfusion h)
  | .error _, .ok _ => isFalse (fun h => Except.noConfusion h)

/-- Result of rolling back one action: the returned error status plus
the ephemeral containers whose removal patch succeeded and failed (the
code only warns about the failed ones). -/
structure RollbackActionResult where
  res : Except String Unit
  removedContainers : List String
  failedContainers : List String
deriving DecidableEq, Repr

/-- RevertTC mirrors `rollback.RevertTC`: on dry run do nothing; fetch
the pod (propagating the error); collect the matching ephemeral
containers; attempt to remove each one, only warning on a failed patch;
report success regardless of the patch outcomes. -/
def RevertTC (env : RollbackEnv) (a : ChaosAction) (dryRun : Bool) :
    RollbackActionResult :=
  if dryRun then ⟨.ok (), [], []⟩
  else
    match env.getPod a.ns a.targetPod with
    | .error e => ⟨.error ("failed to get pod: " ++ e), [], []⟩
    | .ok pod =>
      let toRemove := (pod.ephemeralContainers.filter tcMatches).map (fun c => c.name)
      ⟨.ok (),
       toRemove.filter (fun c => !env.patchRemoveFails a.ns a.targetPod c),
       toRemove.filter (fun c => env.patchRemoveFails a.ns a.targetPod c)⟩

/-- RemoveEphemeral mirrors `rollback.RemoveEphemeral`: identical to
`RevertTC` except for the container-name test. -/
def RemoveEphemeral (env : RollbackEnv) (a : ChaosAction) (dryRun : Bool) :
    RollbackActionResult :=
  if dryRun then ⟨.ok (), [], []⟩
  else
    match env.getPod a.ns a.targetPod with
    | .error e => ⟨.error ("failed to get pod: " ++ e), [], []⟩
    | .ok pod =>
      let toRemove := (pod.ephemeralContainers.filter cpuMatches).map (fun c => c.name)
      ⟨.ok (),
       toRemove.filter (fun c => !env.patchRemoveFails a.ns a.targetPod c),
       toRemove.filter (fun c => env.patchRemoveFails a.ns a.targetPod c)⟩

/-- Deterministic backup path reconstructed when the action metadata has
no backupPath entry. -/
def defaultBackupPath (home svc ns : String) : String :=
  home ++ "/.tipsy/rollback/" ++ svc ++ "_" ++ ns ++ ".json"

/-- RestoreEndpoints mirrors `rollback.RestoreEndpoints`: resolve the
backup path from metadata or reconstruct it; on dry run do nothing;
read and apply the backup, propagating read and update failures (backup
file deletion afterwards is only a warning and does not affect the
result). -/
def RestoreEndpoints (env : RollbackEnv) (a : ChaosAction) (dryRun : Bool) :
    RollbackActionResult :=
  let backupPath :=
    match a.metadata.lookup "backupPath" with
    | some p => p
    | none => defaultBackupPath env.homeDir a.targetPod a.ns
  if dryRun then ⟨.ok (), [], []⟩
  else
    match env.readBackup backupPath with
    | .error e => ⟨.error ("failed to read backup file: " ++ e), [], []⟩
    | .ok eps =>
      if env.updateFails a.ns eps then ⟨.error "failed to restore endpoints", [], []⟩
      else ⟨.ok (), [], []⟩

/-- handleKillAction mirrors `rollback.handleKillAction`: kill actions
cannot be rolled back, so they always report success. -/
def handleKillAction (_env : RollbackEnv) (_a : ChaosAction) (_dryRun : Bool) :
    RollbackActionResult :=
  ⟨.ok (), [], []⟩

/-- rollbackAction mirrors `rollback.rollbackAction`: dispatch on the
action type, with an unknown-action-type error for anything outside the
five known types. -/
def rollbackAction (env : RollbackEnv) (a : ChaosAction) (dryRun : Bool) :
    RollbackActionResult :=
  match a.type with
  | "latency" => RevertTC env a dryRun
  | "packetloss" => RevertTC env a dryRun
  | "cpustress" => RemoveEphemeral env a dryRun
  | "misroute" => RestoreEndpoints env a dryRun
  | "kill" => handleKillAction env a dryRun
  | other => ⟨.error ("unknown action type: " ++ other), [], []⟩

/-- Ledger update after one successful rollback: `state.DeleteAction`
removes the first deeply equal entry; a not-found miss is only warned
about and leaves the ledger unchanged. -/
def deleteOrKeep (ledger : List ChaosAction) (a : ChaosAction) : List ChaosAction :=
  match deleteFirstEqual ledger a with
  | none => ledger
  | some rest => rest

/-- processActions mirrors the per-action loop of `rollback.RollbackAll`:
each action is rolled back independently; on failure the ledger is left
untouched and the failure counter incremented; on success (non-dry-run)
that single action is deleted from the ledger immediately before the
loop continues.  Returns the final ledger and the success and failure
counts. -/
def processActions (env : RollbackEnv) (dryRun : Bool) :
    List ChaosAction → List ChaosAction → Nat → Nat →
    List ChaosAction × Nat × Nat
  | [], ledger, s, f => (ledger, s, f)
  | a :: rest, ledger, s, f =>
    match (rollbackAction env a dryRun).res with
    | .error _ => processActions env dryRun rest ledger s (f + 1)
    | .ok () =>
      if dryRun then processActions env dryRun rest ledger (s + 1) f
      else processActions env dryRun rest (deleteOrKeep ledger a) (s + 1) f

/-- RollbackAll mirrors `rollback.RollbackAll` given an already loaded
ledger: an empty ledger or an empty filter result is a no-op; otherwise
run the per-action loop over the filtered actions. -/
def RollbackAll (env : RollbackEnv) (dryRun : Bool) (ledger : List ChaosAction)
    (filterType filterPod : String) : List ChaosAction × Nat × Nat :=
  if ledger = [] then (ledger, 0, 0)
  else
    let filtered := filterActions ledger filterType filterPod
    if filtered = [] then (ledger, 0, 0)
    else processActions env dryRun filtered ledger 0 0

lemma processActions_cons_ok (env : RollbackEnv) (a : ChaosAction)
    (rest ledger : List ChaosAction) (s f : Nat)
    (h : (rollbackAction env a false).res = .ok ()) :
    processActions env false (a :: rest) ledger s f =
      processActions env false rest (deleteOrKeep ledger a) (s + 1) f := by
  simp [processActions, h]

lemma processActions_cons_err (env : RollbackEnv) (a : ChaosAction)
    (rest ledger : List ChaosAction) (s f : Nat) (e : String)
    (h : (rollbackAction env a false).res = .error e) :
    processActions env false (a :: rest) ledger s f =
      processActions env false rest ledger s (f + 1) := by
  simp [processActions, h]

lemma rollbackAction_kill (env : RollbackEnv) (a : ChaosAction) (dryRun : Bool)
    (h : a.type = "kill") : rollbackAction env a dryRun = ⟨.ok (), [], []⟩ := by
  simp [rollbackAction, h, handleKillAction]

lemma rollbackAction_unknown (env : RollbackEnv) (a : ChaosAction) (dryRun : Bool)
    (h : a.type ∉ (["kill", "latency", "packetloss", "cpustress", "misroute"] : List String)) :
    rollbackAction env a dryRun = ⟨.error ("unknown action type: " ++ a.type), [], []⟩ := by
  simp only [List.mem_cons, List.not_mem_nil, or_false, not_or] at h
  obtain ⟨h1, h2, h3, h4, h5⟩ := h
  unfold rollbackAction
  split <;> simp_all

/-- C1: the rollback engine processes each filtered action
independently: a kill action always reports success; an action with a
type outside the five known ones fails with an unknown-action-type error
for that entry only; in non-dry-run mode a successful action is removed
from the ledger immediately after its own rollback before the loop
continues, while a failed action is left in the ledger and the loop
proceeds to the next action. -/
theorem C1_rollback_per_action (env : RollbackEnv) (a : ChaosAction)
    (rest ledger : List ChaosAction) (s f : Nat) (dryRun : Bool) (e : String) :
    (a.type = "kill" → rollbackAction env a dryRun = ⟨.ok (), [], []⟩) ∧
    (a.type ∉ (["kill", "latency", "packetloss", "cpustress", "misroute"] : List String) →
      rollbackAction env a dryRun = ⟨.error ("unknown action type: " ++ a.type), [], []⟩) ∧
    ((rollbackAction env a false).res = .ok () →
      processActions env false (a :: rest) ledger s f =
        processActions env false rest (deleteOrKeep ledger a) (s + 1) f) ∧
    ((rollbackAction env a false).res = .error e →
      processActions env false (a :: rest) ledger s f =
        processActions env false rest ledger s (f + 1)) :=
  ⟨fun h => rollbackAction_kill env a dryRun h,
   fun h => rollbackAction_unknown env a dryRun h,
   fun h => processActions_cons_ok env a rest ledger s f h,
   fun h => processActions_cons_err env a rest ledger s f e h⟩

/-- Sample rollback environment: every pod lookup returns a pod carrying
one tipsy ephemeral container, and every removal patch fails. -/
def envAllPatchesFail : RollbackEnv where
  getPod := fun _ _ =>
    .ok ⟨"pod1", "default", "uid1", "Running", "10.0.0.1", [],
         [⟨"tipsy-cpu-stress-1", "alpine", [], none⟩]⟩
  patchRemoveFails := fun _ _ _ => true
  readBackup := fun _ => .error "no such file"
  updateFails := fun _ _ => false
  homeDir := "/home/user"

/-- Kill-typed action for the C1 witness. -/
def killAct : ChaosAction := ⟨"kill", "pod9", "default", "2023-01-01T00:00:00Z", []⟩

/-- Unknown-typed action for the C1 witness. -/
def fooAct : ChaosAction := ⟨"foo", "pod8", "default", "2023-01-01T00:00:00Z", []⟩

/-- Witness for C1: a kill action succeeds and is removed immediately; a
foo-typed action errors, stays in the ledger and the loop continues. -/
theorem C1_rollback_per_action_witness :
    rollbackAction envAllPatchesFail killAct false = ⟨.ok (), [], []⟩ ∧
    rollbackAction envAllPatchesFail fooAct false =
      ⟨.error ("unknown action type: " ++ fooAct.type), [], []⟩ ∧
    processActions envAllPatchesFail false [killAct] [killAct, fooAct] 0 0 =
      processActions envAllPatchesFail false [] (deleteOrKeep [killAct, fooAct] killAct) 1 0 ∧
    processActions envAllPatchesFail false [fooAct] [killAct, fooAct] 0 0 =
      processActions envAllPatchesFail false [] [killAct, fooAct] 0 1 := by
  obtain ⟨hk, _, hok, _⟩ := C1_rollback_per_action envAllPatchesFail killAct
    [] [killAct, fooAct] 0 0 false "x"
  obtain ⟨_, hu, _, herr⟩ := C1_rollback_per_action envAllPatchesFail fooAct
    [] [killAct, fooAct] 0 0 false ("unknown action type: " ++ fooAct.type)
  exact ⟨hk rfl, hu (by decide),
         hok (by rw [rollbackAction_kill envAllPatchesFail killAct false rfl]),
         herr (by rw [rollbackAction_unknown envAllPatchesFail fooAct false (by decide)])⟩

/-- C10: for a latency, packetloss or cpustress action whose pod fetch
succeeds, the per-action rollback reports success no matter which (or
how many) of the individual ephemeral-container removal patches fail —
those are only recorded as warnings — and so in non-dry-run mode the
ledger entry is deleted regardless of the patch outcomes. -/
theorem C10_rollback_success_despite_patch_failures (env : RollbackEnv)
    (a : ChaosAction) (pod : Pod) (rest ledger : List ChaosAction) (s f : Nat)
    (htype : a.type = "latency" ∨ a.type = "packetloss" ∨ a.type = "cpustress")
    (hget : env.getPod a.ns a.targetPod = .ok pod) :
    (rollbackAction env a false).res = .ok () ∧
    processActions env false (a :: rest) ledger s f =
      processActions env false rest (deleteOrKeep ledger a) (s + 1) f ∧
    (a.type = "cpustress" →
      (rollbackAction env a false).failedContainers =
        ((pod.ephemeralContainers.filter cpuMatches).map (fun c => c.name)).filter
          (fun c => env.patchRemoveFails a.ns a.targetPod c)) := by
  have hok : (rollbackAction env a false).res = .ok () := by
    rcases htype with h | h | h <;>
      simp [rollbackAction, h, RevertTC, RemoveEphemeral, hget]
  refine ⟨hok, processActions_cons_ok env a rest ledger s f hok, ?_⟩
  intro h
  simp [rollbackAction, h, RemoveEphemeral, hget]

/-- Cpustress action targeting the pod served by `envAllPatchesFail`. -/
def stressAct : ChaosAction :=
  ⟨"cpustress", "pod1", "default", "2023-01-01T00:05:00Z", []⟩

/-- The pod served by `envAllPatchesFail`. -/
def stressPod : Pod :=
  ⟨"pod1", "default", "uid1", "Running", "10.0.0.1", [],
   [⟨"tipsy-cpu-stress-1", "alpine", [], none⟩]⟩

/-- Witness for C10: with every removal patch failing, the cpustress
rollback still succeeds, records the matching container as a warned
failure, and the ledger entry is deleted. -/
theorem C10_rollback_success_despite_patch_failures_witness :
    (rollbackAction envAllPatchesFail stressAct false).res = .ok () ∧
    processActions envAllPatchesFail false [stressAct] [stressAct] 0 0 =
      processActions envAllPatchesFail false [] (deleteOrKeep [stressAct] stressAct) 1 0 ∧
    (stressAct.type = "cpustress" →
      (rollbackAction envAllPatchesFail stressAct false).failedContainers =
        ((stressPod.ephemeralContainers.filter cpuMatches).map (fun c => c.name)).filter
          (fun c => envAllPatchesFail.patchRemoveFails stressAct.ns stressAct.targetPod c)) :=
  C10_rollback_success_despite_patch_failures envAllPatchesFail stressAct
    stressPod [] [stressAct] 0 0 (Or.inr (Or.inr rfl)) rfl

/-! ## Kill executor (`chaos.KillPods`)

The source of randomness (`rand.Intn(len(pods.Items))` draws) is
modelled as an explicit finite prefix `props` of the random index
stream; the Go loop keeps drawing until it has `podsToKill` distinct
indices, so its behaviour on any finite prefix is the structural
recursion below. -/

/-- selectLoop mirrors the retry-until-unique sampling loop of
`chaos.KillPods`: while fewer than `k` indices are selected, draw the
next proposed index and keep it only when it has not been used yet. -/
def selectLoop (k : Nat) : List Nat → List Nat → List Nat
  | [], selected => selected
  | p :: rest, selected =>
    if selected.length < k then
      if p ∈ selected then selectLoop k rest selected
      else selectLoop k rest (selected ++ [p])
    else selected

/-- Observable outcome of one `KillPods` call. -/
structure KillOutcome where
  res : Except String Unit
  warnings : List String
  selected : List String
  deleted : List String
deriving DecidableEq, Repr

/-- KillPods mirrors `chaos.KillPods`: an empty pod list is a warned
no-op; the effective kill count clamps `count` to `[0, len(pods)]`
(non-positive counts warn and kill nothing); indices are sampled without
replacement by `selectLoop`; dry run only logs the selection, otherwise
each selected pod is deleted independently with failed deletes logged
and skipped. -/
def KillPods (pods : List Pod) (count : Int) (dryRun : Bool) (props : List Nat)
    (deleteFails : String → Bool) : KillOutcome :=
  if pods.isEmpty then ⟨.ok (), ["no pods found"], [], []⟩
  else
    let n := pods.length
    let podsToKill : Nat := if count ≤ 0 then 0 else min count.toNat n
    let warnings : List String :=
      (if count ≤ 0 then ["invalid count"] else []) ++
      (if 0 < count ∧ n < count.toNat then ["limiting kill count"] else [])
    let sel := selectLoop podsToKill props []
    let names := sel.map (fun i => (pods.map (fun p => p.name)).getD i "")
    if dryRun then ⟨.ok (), warnings, names, []⟩
    else ⟨.ok (), warnings, names, names.filter (fun nm => !deleteFails nm)⟩

lemma selectLoop_mem (k : Nat) :
    ∀ (props selected : List Nat) (i : Nat), i ∈ selectLoop k props selected →
      i ∈ props ∨ i ∈ selected := by
  intro props
  induction props with
  | nil => intro selected i h; exact Or.inr h
  | cons p rest ih =>
    intro selected i h
    unfold selectLoop at h
    by_cases hlen : selected.length < k
    · rw [if_pos hlen] at h
      by_cases hp : p ∈ selected
      · rw [if_pos hp] at h
        rcases ih selected i h with h' | h'
        · exact Or.inl (List.mem_cons_of_mem p h')
        · exact Or.inr h'
      · rw [if_neg hp] at h
        rcases ih (selected ++ [p]) i h with h' | h'
        · exact Or.inl (List.mem_cons_of_mem p h')
        · rcases List.mem_append.1 h' with h'' | h''
          · exact Or.inr h''
          · simp only [List.mem_singleton] at h''
            exact Or.inl (h'' ▸ List.mem_cons_self p rest)
    · rw [if_neg hlen] at h
      exact Or.inr h

lemma selectLoop_nodup (k : Nat) :
    ∀ (props selected : List Nat), selected.Nodup →
      (selectLoop k props selected).Nodup := by
  intro props
  induction props with
  | nil => intro selected h; exact h
  | cons p rest ih =>
    intro selected h
    unfold selectLoop
    by_cases hlen : selected.length < k
    · rw [if_pos hlen]
      by_cases hp : p ∈ selected
      · rw [if_pos hp]; exact ih selected h
      · rw [if_neg hp]
        exact ih (selected ++ [p])
          (by rw [← List.concat_eq_append]; exact h.concat hp)
    · rw [if_neg hlen]; exact h

lemma selectLoop_length_le (k : Nat) :
    ∀ (props selected : List Nat), selected.length ≤ k →
      (selectLoop k props selected).length ≤ k := by
  intro props
  induction props with
  | nil => intro selected h; exact h
  | cons p rest ih =>
    intro selected h
    unfold selectLoop
    by_cases hlen : selected.length < k
    · rw [if_pos hlen]
      by_cases hp : p ∈ selected
      · rw [if_pos hp]; exact ih selected h
      · rw [if_neg hp]
        exact ih (selected ++ [p]) (by simpa using hlen)
    · rw [if_neg hlen]; exact h

lemma selectLoop_length_complete (n k : Nat) :
    ∀ (props selected : List Nat), selected.Nodup →
      (∀ i ∈ selected, i < n) → (∀ p ∈ props, p < n) →
      (∀ j, j < n → j ∈ props ∨ j ∈ selected) →
      selected.length ≤ k → k ≤ n →
      (selectLoop k props selected).length = k := by
  intro props
  induction props with
  | nil =>
    intro selected hnd hbound _ hcov hle hkn
    have hsub : (List.range n).toFinset ⊆ selected.toFinset := by
      intro j hj
      rw [List.mem_toFinset] at hj ⊢
      rcases hcov j (List.mem_range.1 hj) with h | h
      · exact absurd h (List.not_mem_nil j)
      · exact h
    have h1 : n ≤ selected.toFinset.card := by
      have := Finset.card_le_card hsub
      rwa [List.toFinset_card_of_nodup (List.nodup_range n), List.length_range] at this
    have h2 : selected.toFinset.card ≤ selected.length := List.toFinset_card_le selected
    have : n ≤ selected.length := le_trans h1 h2
    have : selected.length = k := le_antisymm hle (le_trans hkn this)
    simpa [selectLoop] using this
  | cons p rest ih =>
    intro selected hnd hbound hprops hcov hle hkn
    unfold selectLoop
    by_cases hlen : selected.length < k
    · rw [if_pos hlen]
      by_cases hp : p ∈ selected
      · rw [if_pos hp]
        refine ih selected hnd hbound (fun q hq => hprops q (List.mem_cons_of_mem p hq))
          ?_ hle hkn
        intro j hj
        rcases hcov j hj with h | h
        · rcases List.mem_cons.1 h with h' | h'
          · exact Or.inr (h' ▸ hp)
          · exact Or.inl h'
        · exact Or.inr h
      · rw [if_neg hp]
        refine ih (selected ++ [p])
          (by rw [← List.concat_eq_append]; exact hnd.concat hp)
          ?_ (fun q hq => hprops q (List.mem_cons_of_mem p hq)) ?_
          (by simpa using hlen) hkn
        · intro i hi
          rcases List.mem_append.1 hi with h | h
          · exact hbound i h
          · simp only [List.mem_singleton] at h
            exact h ▸ hprops p (List.mem_cons_self p rest)
        · intro j hj
          rcases hcov j hj with h | h
          · rcases List.mem_cons.1 h with h' | h'
            · exact Or.inr (List.mem_append.2 (Or.inr (by simp [h'])))
            · exact Or.inl h'
          · exact Or.inr (List.mem_append.2 (Or.inl h))
    · rw [if_neg hlen]
      exact le_antisymm hle (Nat.le_of_not_lt hlen)

lemma nodup_map_getD (l : List String) (sel : List Nat) (hsel : sel.Nodup)
    (hb : ∀ i ∈ sel, i < l.length) (hl : l.Nodup) :
    (sel.map (fun i => l.getD i "")).Nodup := by
  refine List.Nodup.map_on ?_ hsel
  intro i hi j hj hij
  have hi' : i < l.length := hb i hi
  have hj' : j < l.length := hb j hj
  rw [List.getD_eq_getElem l "" hi', List.getD_eq_getElem l "" hj'] at hij
  exact (List.Nodup.getElem_inj_iff hl).1 hij

lemma selectLoop_zero (props : List Nat) : selectLoop 0 props [] = [] := by
  cases props <;> simp [selectLoop]

lemma clampCount_eq (c : Int) (n : Nat) :
    (if c ≤ 0 then 0 else min c.toNat n) = min c.toNat n := by
  by_cases h : c ≤ 0
  · simp [h, Int.toNat_of_nonpos h]
  · simp [h]

/-- C3: the kill executor selects pairwise-distinct pods, kills exactly
`min(max(c,0), |P|)` of them once the random stream has proposed every
index and the deletes succeed, treats `c ≤ 0` as a warned no-op and an
empty pod list as a no-op success, and deletes nothing in dry-run mode.
`props` is the finite prefix of the random index stream the loop
consumes. -/
theorem C3_kill_clamped_distinct (pods : List Pod) (c : Int) (props : List Nat)
    (deleteFails : String → Bool)
    (hprops : ∀ p ∈ props, p < pods.length)
    (hnames : (pods.map (fun p => p.name)).Nodup) :
    (KillPods pods c false props deleteFails).selected.Nodup ∧
    (KillPods pods c false props deleteFails).selected.length ≤
      min c.toNat pods.length ∧
    ((∀ j, j < pods.length → j ∈ props) → (∀ nm, deleteFails nm = false) →
      pods ≠ [] →
      (KillPods pods c false props deleteFails).deleted.length =
        min c.toNat pods.length) ∧
    (c ≤ 0 → pods ≠ [] →
      KillPods pods c false props deleteFails = ⟨.ok (), ["invalid count"], [], []⟩) ∧
    (pods = [] →
      KillPods pods c false props deleteFails = ⟨.ok (), ["no pods found"], [], []⟩) ∧
    (KillPods pods c true props deleteFails).deleted = [] ∧
    (KillPods pods c true props deleteFails).res = .ok () := by
  by_cases hemp : pods.isEmpty
  · have hpods : pods = [] := List.isEmpty_iff.1 hemp
    subst hpods
    refine ⟨by simp [KillPods], by simp [KillPods], ?_, ?_, ?_, by simp [KillPods], by simp [KillPods]⟩
    · intro _ _ h; exact absurd rfl h
    · intro _ h; exact absurd rfl h
    · intro _; rfl
  · have hne : pods ≠ [] := fun h => hemp (by simp [h])
    set n := pods.length with hn
    set k : Nat := if c ≤ 0 then 0 else min c.toNat n with hk
    have hkmin : k = min c.toNat n := clampCount_eq c n
    have hkn : k ≤ n := by rw [hkmin]; exact min_le_right _ _
    set sel := selectLoop k props [] with hsel
    have hselnd : sel.Nodup := selectLoop_nodup k props [] List.nodup_nil
    have hselb : ∀ i ∈ sel, i < n := by
      intro i hi
      rcases selectLoop_mem k props [] i hi with h | h
      · exact hprops i h
      · exact absurd h (List.not_mem_nil i)
    have hselb' : ∀ i ∈ sel, i < (pods.map (fun p => p.name)).length := by
      intro i hi; rw [List.length_map]; exact hselb i hi
    have hnd : (sel.map (fun i => (pods.map (fun p => p.name)).getD i "")).Nodup :=
      nodup_map_getD _ sel hselnd hselb' hnames
    have hself : (KillPods pods c false props deleteFails).selected =
        sel.map (fun i => (pods.map (fun p => p.name)).getD i "") := by
      simp only [KillPods, hemp, Bool.false_eq_true, if_false, ← hn, ← hk, ← hsel]
    have hdelf : (KillPods pods c false props deleteFails).deleted =
        (sel.map (fun i => (pods.map (fun p => p.name)).getD i "")).filter
          (fun nm => !deleteFails nm) := by
      simp only [KillPods, hemp, Bool.false_eq_true, if_false, ← hn, ← hk, ← hsel]
    refine ⟨?_, ?_, ?_, ?_, ?_, ?_, ?_⟩
    · rw [hself]; exact hnd
    · rw [hself, List.length_map, ← hkmin]
      exact selectLoop_length_le k props [] (Nat.zero_le k)
    · intro hcov hdel _
      rw [hdelf]
      have hfe : (sel.map (fun i => (pods.map (fun p => p.name)).getD i "")).filter
          (fun nm => !deleteFails nm) =
          sel.map (fun i => (pods.map (fun p => p.name)).getD i "") := by
        apply List.filter_eq_self.2
        intro nm _
        simp [hdel nm]
      rw [hfe, List.length_map, ← hkmin]
      exact selectLoop_length_complete n k props [] List.nodup_nil
        (fun i hi => absurd hi (List.not_mem_nil i)) hprops
        (fun j hj => Or.inl (hcov j hj)) (Nat.zero_le k) hkn
    · intro hc _
      have hk0 : k = 0 := by rw [hk, if_pos hc]
      have hw : ¬(0 < c ∧ n < c.toNat) := fun ⟨h1, _⟩ => absurd hc (not_le.2 h1)
      simp only [KillPods, hemp, Bool.false_eq_true, if_false, ← hn, ← hk, hk0,
        selectLoop_zero, if_pos hc, if_neg hw]
      simp
    · intro h; exact absurd h hne
    · simp [KillPods, hemp]
    · simp [KillPods, hemp]

/-- Three-pod set for the kill witness. -/
def pods3 : List Pod :=
  [ ⟨"pa", "default", "u1", "Running", "10.0.0.1", [], []⟩,
    ⟨"pb", "default", "u2", "Pending", "10.0.0.2", [], []⟩,
    ⟨"pc", "default", "u3", "Running", "10.0.0.3", [], []⟩ ]

/-- Witness for C3: three pods, count 2, a random stream that repeats an
index before covering all three, and always-succeeding deletes. -/
theorem C3_kill_clamped_distinct_witness :
    (KillPods pods3 2 false [0, 0, 1, 2] (fun _ => false)).selected.Nodup ∧
    (KillPods pods3 2 false [0, 0, 1, 2] (fun _ => false)).selected.length ≤
      min (2 : Int).toNat pods3.length ∧
    ((∀ j, j < pods3.length → j ∈ [0, 0, 1, 2]) →
      (∀ nm : String, (fun _ => false) nm = false) → pods3 ≠ [] →
      (KillPods pods3 2 false [0, 0, 1, 2] (fun _ => false)).deleted.length =
        min (2 : Int).toNat pods3.length) ∧
    ((2 : Int) ≤ 0 → pods3 ≠ [] →
      KillPods pods3 2 false [0, 0, 1, 2] (fun _ => false) =
        ⟨.ok (), ["invalid count"], [], []⟩) ∧
    (pods3 = [] →
      KillPods pods3 2 false [0, 0, 1, 2] (fun _ => false) =
        ⟨.ok (), ["no pods found"], [], []⟩) ∧
    (KillPods pods3 2 true [0, 0, 1, 2] (fun _ => false)).deleted = [] ∧
    (KillPods pods3 2 true [0, 0, 1, 2] (fun _ => false)).res = .ok () :=
  C3_kill_clamped_distinct pods3 2 [0, 0, 1, 2] (fun _ => false)
    (by decide) (by decide)

/-! ## Fault injectors (`chaos.InjectLatency`, `InjectPacketLoss`,
`InjectCPUStress`)

The injected ephemeral containers are built exactly as in the source;
the delivered strategic-merge patch body is reified as `PatchBody` so
its contents can be compared with the target pod's existing
ephemeral-container list. -/

/-- The strategic-merge patch body delivered to the
`ephemeralContainers` subresource. -/
structure PatchBody where
  ephemeralContainers : List EphemeralContainer
deriving DecidableEq, Repr

/-- Common process names probed by the latency and packetloss scripts. -/
def commonProcesses : List String :=
  ["nginx", "apache2", "httpd", "node", "python", "java", "go", "main"]

/-- getMainProcessName mirrors `chaos.getMainProcessName`: the first
entry of the common process list. -/
def getMainProcessName : String := commonProcesses.headD ""

/-- Shell script of the latency injector container: discover the main
PID, add the netem delay rule, sleep for the duration, then best-effort
remove the rule. -/
def latencyScript (processName delay : String) (durationSec : Nat) : String :=
  "MAIN_PID=$(ps -o pid= -C " ++ processName ++ " 2>/dev/null | head -1); " ++
  "if [ -z \"$MAIN_PID\" ]; then MAIN_PID=1; fi; " ++
  "nsenter -t $MAIN_PID -n tc qdisc add dev eth0 root netem delay " ++ delay ++ "; " ++
  "sleep " ++ toString durationSec ++ "; " ++
  "nsenter -t $MAIN_PID -n tc qdisc del dev eth0 root netem delay " ++ delay ++
  " 2>/dev/null || true"

/-- Shell script of the packetloss injector container. -/
def packetLossScript (processName loss : String) (durationSec : Nat) : String :=
  "MAIN_PID=$(ps -o pid= -C " ++ processName ++ " 2>/dev/null | head -1); " ++
  "if [ -z \"$MAIN_PID\" ]; then MAIN_PID=1; fi; " ++
  "nsenter -t $MAIN_PID -n tc qdisc add dev eth0 root netem loss " ++ loss ++ "; " ++
  "sleep " ++ toString durationSec ++ "; " ++
  "nsenter -t $MAIN_PID -n tc qdisc del dev eth0 root netem loss " ++ loss ++
  " 2>/dev/null || true"

/-- The ephemeral container built by `injectLatencyToPod`: note that no
resource requests or limits are attached. -/
def latencyContainer (delay : String) (durationSec nowUnix : Nat) : EphemeralContainer :=
  ⟨"latency-injector-" ++ toString nowUnix,
   "ghcr.io/chaos-tools/netem:latest",
   ["sh", "-c", latencyScript getMainProcessName delay durationSec],
   none⟩

/-- The ephemeral container built by `injectPacketLossToPod`: again, no
resources attached. -/
def packetLossContainer (loss : String) (durationSec nowUnix : Nat) : EphemeralContainer :=
  ⟨"packetloss-injector-" ++ toString nowUnix,
   "ghcr.io/chaos-tools/netem:latest",
   ["sh", "-c", packetLossScript getMainProcessName loss durationSec],
   none⟩

/-- Resource requests and limits attached to the CPU-stress container. -/
def cpuStressResources : StressResources := ⟨"100m", "64Mi", "500m", "128Mi"⟩

/-- The ephemeral container built by `injectCPUStressToPod`, or an
unsupported-method error.  The method switch is case-sensitive; the
resources block is attached for both valid methods. -/
def cpuStressContainer (method : String) (durationSec nowUnix : Nat) :
    Except String EphemeralContainer :=
  match method with
  | "stress-ng" =>
    .ok ⟨"tipsy-cpu-stress-" ++ toString nowUnix,
         "ghcr.io/chaos-tools/stress-ng:latest",
         ["stress-ng", "--cpu", "1", "--timeout", toString durationSec ++ "s"],
         some cpuStressResources⟩
  | "yes" =>
    .ok ⟨"tipsy-cpu-stress-" ++ toString nowUnix,
         "alpine",
         ["sh", "-c", "yes > /dev/null & sleep " ++ toString durationSec],
         some cpuStressResources⟩
  | _ => .error ("unsupported method: " ++ method)

/-- injectLatencyToPod mirrors `chaos.injectLatencyToPod`: dry run only
logs; otherwise the delivered patch body carries exactly the one new
container, and a failed patch is reported as an error.  The second
component is the patch body actually sent (none in dry run). -/
def injectLatencyToPod (delay : String) (durationSec nowUnix : Nat)
    (dryRun patchFails : Bool) : Except String Unit × Option PatchBody :=
  if dryRun then (.ok (), none)
  else
    let body : PatchBody := ⟨[latencyContainer delay durationSec nowUnix]⟩
    if patchFails then (.error "failed to add ephemeral container", some body)
    else (.ok (), some body)

/-- injectPacketLossToPod mirrors `chaos.injectPacketLossToPod`. -/
def injectPacketLossToPod (loss : String) (durationSec nowUnix : Nat)
    (dryRun patchFails : Bool) : Except String Unit × Option PatchBody :=
  if dryRun then (.ok (), none)
  else
    let body : PatchBody := ⟨[packetLossContainer loss durationSec nowUnix]⟩
    if patchFails then (.error "failed to add ephemeral container", some body)
    else (.ok (), some body)

/-- injectCPUStressToPod mirrors `chaos.injectCPUStressToPod`: the
method is validated before the dry-run check, then the patch body with
exactly the one new container is delivered. -/
def injectCPUStressToPod (method : String) (durationSec nowUnix : Nat)
    (dryRun patchFails : Bool) : Except String Unit × Option PatchBody :=
  match cpuStressContainer method durationSec nowUnix with
  | .error e => (.error e, none)
  | .ok ctr =>
    if dryRun then (.ok (), none)
    else
      let body : PatchBody := ⟨[ctr]⟩
      if patchFails then (.error "failed to add ephemeral container", some body)
      else (.ok (), some body)

/-- Observable outcome of one injection command over the listed pods. -/
structure InjectOutcome where
  processed : List String
  skipped : List String
  failed : List String
  patches : List (String × PatchBody)
deriving DecidableEq, Repr

/-- Record a delivered patch against its pod. -/
def consPatch (podName : String) (body : Option PatchBody)
    (patches : List (String × PatchBody)) : List (String × PatchBody) :=
  match body with
  | none => patches
  | some b => (podName, b) :: patches

/-- Per-pod loop of `chaos.InjectLatency`: pods not in the Running phase
are skipped with a warning; per-pod patch failures are logged and the
loop continues. -/
def injectLatencyLoop (delay : String) (durationSec nowUnix : Nat)
    (dryRun : Bool) (patchFails : String → Bool) : List Pod → InjectOutcome
  | [] => ⟨[], [], [], []⟩
  | p :: rest =>
    let o := injectLatencyLoop delay durationSec nowUnix dryRun patchFails rest
    if p.phase ≠ "Running" then { o with skipped := p.name :: o.skipped }
    else
      match injectLatencyToPod delay durationSec nowUnix dryRun (patchFails p.name) with
      | (.error _, body) =>
        { o with processed := p.name :: o.processed,
                 failed := p.name :: o.failed,
                 patches := consPatch p.name body o.patches }
      | (.ok _, body) =>
        { o with processed := p.name :: o.processed,
                 patches := consPatch p.name body o.patches }

/-- Per-pod loop of `chaos.InjectPacketLoss`. -/
def injectPacketLossLoop (loss : String) (durationSec nowUnix : Nat)
    (dryRun : Bool) (patchFails : String → Bool) : List Pod → InjectOutcome
  | [] => ⟨[], [], [], []⟩
  | p :: rest =>
    let o := injectPacketLossLoop loss durationSec nowUnix dryRun patchFails rest
    if p.phase ≠ "Running" then { o with skipped := p.name :: o.skipped }
    else
      match injectPacketLossToPod loss durationSec nowUnix dryRun (patchFails p.name) with
      | (.error _, body) =>
        { o with processed := p.name :: o.processed,
                 failed := p.name :: o.failed,
                 patches := consPatch p.name body o.patches }
      | (.ok _, body) =>
        { o with processed := p.name :: o.processed,
                 patches := consPatch p.name body o.patches }

/-- Per-pod loop of `chaos.InjectCPUStress`. -/
def injectCPUStressLoop (method : String) (durationSec nowUnix : Nat)
    (dryRun : Bool) (patchFails : String → Bool) : List Pod → InjectOutcome
  | [] => ⟨[], [], [], []⟩
  | p :: rest =>
    let o := injectCPUStressLoop method durationSec nowUnix dryRun patchFails rest
    if p.phase ≠ "Running" then { o with skipped := p.name :: o.skipped }
    else
      match injectCPUStressToPod method durationSec nowUnix dryRun (patchFails p.name) with
      | (.error _, body) =>
        { o with processed := p.name :: o.processed,
                 failed := p.name :: o.failed,
                 patches := consPatch p.name body o.patches }
      | (.ok _, body) =>
        { o with processed := p.name :: o.processed,
                 patches := consPatch p.name body o.patches }

/-! ## Endpoint misrouter (`chaos.MisrouteService`)

The filesystem and API side effects of a misroute call are reified as an
ordered event trace, so that [backup written] strictly preceding
[endpoints updated] is expressible. -/

/-- Endpoint address built from a pod by
`chaos.buildEndpointSubsetsFromPods`. -/
def mkEndpointAddress (p : Pod) : EndpointAddress :=
  ⟨p.podIP, p.name, p.ns, p.uid⟩

/-- Pod readiness test: some condition of type Ready with status True. -/
def podIsReady (p : Pod) : Bool :=
  p.conditions.any (fun c => c.condType == "Ready" && c.status == "True")

/-- Eligibility filter inside `buildEndpointSubsetsFromPods`: pods not
in the Running phase, or with no IP, are skipped. -/
def endpointEligible (p : Pod) : Bool :=
  p.phase == "Running" && p.podIP != ""

/-- The ready / not-ready address partition loop of
`buildEndpointSubsetsFromPods`, preserving pod order. -/
def partitionAddresses : List Pod → List EndpointAddress × List EndpointAddress
  | [] => ([], [])
  | p :: rest =>
    let (ready, notReady) := partitionAddresses rest
    if !endpointEligible p then (ready, notReady)
    else if podIsReady p then (mkEndpointAddress p :: ready, notReady)
    else (ready, mkEndpointAddress p :: notReady)

/-- buildEndpointSubsetsFromPods mirrors
`chaos.buildEndpointSubsetsFromPods`: with no service ports the result
is empty; otherwise one subset per non-empty partition, each carrying
the full port list copied from the service. -/
def buildEndpointSubsetsFromPods (pods : List Pod) (servicePorts : List ServicePort) :
    List EndpointSubset :=
  if servicePorts.isEmpty then []
  else
    let (readyAddresses, notReadyAddresses) := partitionAddresses pods
    let ports := servicePorts.map (fun sp => (⟨sp.name, sp.port, sp.protocol⟩ : EndpointPort))
    (if readyAddresses.isEmpty then [] else [⟨readyAddresses, [], ports⟩]) ++
    (if notReadyAddresses.isEmpty then [] else [⟨[], notReadyAddresses, ports⟩])

/-- Filesystem and API events a misroute call emits, in order. -/
inductive MisrouteEvent where
  | backupWritten (path : String) (eps : Endpoints)
  | endpointsUpdated (eps : Endpoints)
deriving DecidableEq, Repr

/-- MisrouteService mirrors `chaos.MisrouteService` after the service
and endpoints fetches have succeeded (both objects are inputs): unless
dry run, the current endpoints are serialized to the deterministic
backup path first (a failed backup write is only a warning); then the
modified subset list is computed (remove-all wins, otherwise a non-empty
replace selector, otherwise unchanged); dry run stops before any
mutation, otherwise a single update is issued. -/
def MisrouteService (home svcName ns : String) (servicePorts : List ServicePort)
    (eps : Endpoints) (replaceSelector : String) (removeAll dryRun : Bool)
    (selectorPods : List Pod) (backupWriteFails updateFails : Bool) :
    Except String Unit × List MisrouteEvent :=
  let events0 : List MisrouteEvent :=
    if !dryRun && !backupWriteFails then
      [.backupWritten (defaultBackupPath home svcName ns) eps]
    else []
  let modified : Endpoints :=
    if removeAll then ⟨[]⟩
    else if replaceSelector ≠ "" then
      if selectorPods.isEmpty then ⟨[]⟩
      else ⟨buildEndpointSubsetsFromPods selectorPods servicePorts⟩
    else eps
  if dryRun then (.ok (), events0)
  else if updateFails then (.error "failed to update endpoints", events0)
  else (.ok (), events0 ++ [.endpointsUpdated modified])

lemma injectLatencyLoop_spec (delay : String) (d n : Nat) (dryRun : Bool)
    (pf : String → Bool) (pods : List Pod) :
    (injectLatencyLoop delay d n dryRun pf pods).skipped =
      (pods.filter (fun p => !(p.phase == "Running"))).map (fun p => p.name) ∧
    (injectLatencyLoop delay d n dryRun pf pods).processed =
      (pods.filter (fun p => p.phase == "Running")).map (fun p => p.name) ∧
    (∀ nm ∈ (injectLatencyLoop delay d n dryRun pf pods).failed,
      nm ∈ (injectLatencyLoop delay d n dryRun pf pods).processed) := by
  induction pods with
  | nil => exact ⟨rfl, rfl, fun nm h => absurd h (List.not_mem_nil nm)⟩
  | cons p rest ih =>
    obtain ⟨ihs, ihp, ihf⟩ := ih
    by_cases hp : p.phase = "Running"
    · simp only [injectLatencyLoop]
      rw [if_neg (by simp [hp])]
      rcases hres : injectLatencyToPod delay d n dryRun (pf p.name) with ⟨res, body⟩
      cases res with
      | error e =>
        refine ⟨by simp [hp, ihs], by simp [hp, ihp], ?_⟩
        intro nm h
        rcases List.mem_cons.1 h with h' | h'
        · exact h' ▸ List.mem_cons_self _ _
        · exact List.mem_cons_of_mem _ (ihf nm h')
      | ok u =>
        refine ⟨by simp [hp, ihs], by simp [hp, ihp], ?_⟩
        intro nm h
        exact List.mem_cons_of_mem _ (ihf nm h)
    · simp only [injectLatencyLoop]
      rw [if_pos (by simp [hp])]
      refine ⟨by simp [hp, ihs], by simp [hp, ihp], fun nm h => ihf nm h⟩

lemma injectPacketLossLoop_spec (loss : String) (d n : Nat) (dryRun : Bool)
    (pf : String → Bool) (pods : List Pod) :
    (injectPacketLossLoop loss d n dryRun pf pods).skipped =
      (pods.filter (fun p => !(p.phase == "Running"))).map (fun p => p.name) ∧
    (injectPacketLossLoop loss d n dryRun pf pods).processed =
      (pods.filter (fun p => p.phase == "Running")).map (fun p => p.name) ∧
    (∀ nm ∈ (injectPacketLossLoop loss d n dryRun pf pods).failed,
      nm ∈ (injectPacketLossLoop loss d n dryRun pf pods).processed) := by
  induction pods with
  | nil => exact ⟨rfl, rfl, fun nm h => absurd h (List.not_mem_nil nm)⟩
  | cons p rest ih =>
    obtain ⟨ihs, ihp, ihf⟩ := ih
    by_cases hp : p.phase = "Running"
    · simp only [injectPacketLossLoop]
      rw [if_neg (by simp [hp])]
      rcases hres : injectPacketLossToPod loss d n dryRun (pf p.name) with ⟨res, body⟩
      cases res with
      | error e =>
        refine ⟨by simp [hp, ihs], by simp [hp, ihp], ?_⟩
        intro nm h
        rcases List.mem_cons.1 h with h' | h'
        · exact h' ▸ List.mem_cons_self _ _
        · exact List.mem_cons_of_mem _ (ihf nm h')
      | ok u =>
        refine ⟨by simp [hp, ihs], by simp [hp, ihp], ?_⟩
        intro nm h
        exact List.mem_cons_of_mem _ (ihf nm h)
    · simp only [injectPacketLossLoop]
      rw [if_pos (by simp [hp])]
      refine ⟨by simp [hp, ihs], by simp [hp, ihp], fun nm h => ihf nm h⟩

lemma injectCPUStressLoop_spec (method : String) (d n : Nat) (dryRun : Bool)
    (pf : String → Bool) (pods : List Pod) :
    (injectCPUStressLoop method d n dryRun pf pods).skipped =
      (pods.filter (fun p => !(p.phase == "Running"))).map (fun p => p.name) ∧
    (injectCPUStressLoop method d n dryRun pf pods).processed =
      (pods.filter (fun p => p.phase == "Running")).map (fun p => p.name) ∧
    (∀ nm ∈ (injectCPUStressLoop method d n dryRun pf pods).failed,
      nm ∈ (injectCPUStressLoop method d n dryRun pf pods).processed) := by
  induction pods with
  | nil => exact ⟨rfl, rfl, fun nm h => absurd h (List.not_mem_nil nm)⟩
  | cons p rest ih =>
    obtain ⟨ihs, ihp, ihf⟩ := ih
    by_cases hp : p.phase = "Running"
    · simp only [injectCPUStressLoop]
      rw [if_neg (by simp [hp])]
      rcases hres : injectCPUStressToPod method d n dryRun (pf p.name) with ⟨res, body⟩
      cases res with
      | error e =>
        refine ⟨by simp [hp, ihs], by simp [hp, ihp], ?_⟩
        intro nm h
        rcases List.mem_cons.1 h with h' | h'
        · exact h' ▸ List.mem_cons_self _ _
        · exact List.mem_cons_of_mem _ (ihf nm h')
      | ok u =>
        refine ⟨by simp [hp, ihs], by simp [hp, ihp], ?_⟩
        intro nm h
        exact List.mem_cons_of_mem _ (ihf nm h)
    · simp only [injectCPUStressLoop]
      rw [if_pos (by simp [hp])]
      refine ⟨by simp [hp, ihs], by simp [hp, ihp], fun nm h => ihf nm h⟩

lemma KillPods_phase_independent (pods : List Pod) (c : Int) (dryRun : Bool)
    (props : List Nat) (deleteFails : String → Bool) (f : String → String) :
    KillPods (pods.map (fun p => { p with phase := f p.phase })) c dryRun props deleteFails =
      KillPods pods c dryRun props deleteFails := by
  have hlen : (pods.map (fun p => { p with phase := f p.phase })).length = pods.length :=
    List.length_map _ _
  have hnames : (pods.map (fun p => { p with phase := f p.phase })).map (fun p => p.name) =
      pods.map (fun p => p.name) := by
    rw [List.map_map]; rfl
  have hemp : (pods.map (fun p => { p with phase := f p.phase })).isEmpty = pods.isEmpty := by
    cases pods <;> rfl
  simp only [KillPods, hlen, hnames, hemp]

lemma partitionAddresses_spec (pods : List Pod) :
    partitionAddresses pods =
      ((pods.filter (fun p => endpointEligible p && podIsReady p)).map mkEndpointAddress,
       (pods.filter (fun p => endpointEligible p && !podIsReady p)).map mkEndpointAddress) := by
  induction pods with
  | nil => rfl
  | cons p rest ih =>
    simp only [partitionAddresses, ih]
    by_cases he : endpointEligible p
    · by_cases hr : podIsReady p
      · simp [he, hr, List.filter_cons]
      · simp [he, hr, List.filter_cons]
    · simp [he, List.filter_cons]

/-- Service port used by the misroute examples. -/
def svcPort0 : ServicePort := ⟨"http", 80, "TCP"⟩

/-- A selector-matching pod in the Pending phase with an IP. -/
def pendingPod : Pod := ⟨"pod3", "default", "u3", "Pending", "10.0.0.3", [], []⟩

/-- The same pod in the Running phase. -/
def runningPod3 : Pod := ⟨"pod3", "default", "u3", "Running", "10.0.0.3", [], []⟩

/-- C7 counterexample: the claim says the misroute selector-based
endpoint replacement applies no phase filter, but a Pending pod matching
the selector (with an IP) contributes no endpoint address, while the
identical pod in the Running phase does — `buildEndpointSubsetsFromPods`
does filter by phase. -/
theorem C7_counterexample :
    buildEndpointSubsetsFromPods [pendingPod] [svcPort0] = [] ∧
    buildEndpointSubsetsFromPods [runningPod3] [svcPort0] =
      [⟨[], [mkEndpointAddress runningPod3], [⟨"http", 80, "TCP"⟩]⟩] :=
  ⟨rfl, rfl⟩

/-- C7 (amended): latency, packetloss and cpustress injection skip every
matching pod not in the Running phase (skips never count as failures,
which only arise among processed pods); the kill executor applies no
phase filter (its outcome is invariant under arbitrary rewriting of pod
phases); the misroute selector-based replacement, however, filters by
phase: the partition backing its subsets holds exactly the Running
pods with a non-empty IP, split by readiness. -/
theorem C7_phase_eligibility (pods : List Pod) (delay loss method : String)
    (d n : Nat) (dryRun : Bool) (pf : String → Bool) (c : Int) (props : List Nat)
    (deleteFails : String → Bool) (f : String → String) :
    (injectLatencyLoop delay d n dryRun pf pods).skipped =
      (pods.filter (fun p => !(p.phase == "Running"))).map (fun p => p.name) ∧
    (injectLatencyLoop delay d n dryRun pf pods).processed =
      (pods.filter (fun p => p.phase == "Running")).map (fun p => p.name) ∧
    (∀ nm ∈ (injectLatencyLoop delay d n dryRun pf pods).failed,
      nm ∈ (injectLatencyLoop delay d n dryRun pf pods).processed) ∧
    (injectPacketLossLoop loss d n dryRun pf pods).skipped =
      (pods.filter (fun p => !(p.phase == "Running"))).map (fun p => p.name) ∧
    (injectCPUStressLoop method d n dryRun pf pods).skipped =
      (pods.filter (fun p => !(p.phase == "Running"))).map (fun p => p.name) ∧
    KillPods (pods.map (fun p => { p with phase := f p.phase })) c dryRun props deleteFails =
      KillPods pods c dryRun props deleteFails ∧
    partitionAddresses pods =
      ((pods.filter (fun p => endpointEligible p && podIsReady p)).map mkEndpointAddress,
       (pods.filter (fun p => endpointEligible p && !podIsReady p)).map mkEndpointAddress) :=
  ⟨(injectLatencyLoop_spec delay d n dryRun pf pods).1,
   (injectLatencyLoop_spec delay d n dryRun pf pods).2.1,
   (injectLatencyLoop_spec delay d n dryRun pf pods).2.2,
   (injectPacketLossLoop_spec loss d n dryRun pf pods).1,
   (injectCPUStressLoop_spec method d n dryRun pf pods).1,
   KillPods_phase_independent pods c dryRun props deleteFails f,
   partitionAddresses_spec pods⟩

/-- Mixed-phase pod list for the C7 witness. -/
def mixedPods : List Pod := [runningPod3, pendingPod]

/-- Witness for the amended C7 at a two-pod list with one Running and
one Pending pod, with every patch failing so that the failed list is
non-empty. -/
theorem C7_phase_eligibility_witness :
    (injectLatencyLoop "200ms" 30 1 false (fun _ => true) mixedPods).skipped =
      (mixedPods.filter (fun p => !(p.phase == "Running"))).map (fun p => p.name) ∧
    (injectLatencyLoop "200ms" 30 1 false (fun _ => true) mixedPods).processed =
      (mixedPods.filter (fun p => p.phase == "Running")).map (fun p => p.name) ∧
    "pod3" ∈ (injectLatencyLoop "200ms" 30 1 false (fun _ => true) mixedPods).processed ∧
    (injectPacketLossLoop "10%" 30 1 false (fun _ => true) mixedPods).skipped =
      (mixedPods.filter (fun p => !(p.phase == "Running"))).map (fun p => p.name) ∧
    (injectCPUStressLoop "stress-ng" 30 1 false (fun _ => true) mixedPods).skipped =
      (mixedPods.filter (fun p => !(p.phase == "Running"))).map (fun p => p.name) ∧
    KillPods (mixedPods.map (fun p => { p with phase := (fun _ => "Failed") p.phase }))
        1 false [0] (fun _ => false) =
      KillPods mixedPods 1 false [0] (fun _ => false) ∧
    partitionAddresses mixedPods =
      ((mixedPods.filter (fun p => endpointEligible p && podIsReady p)).map mkEndpointAddress,
       (mixedPods.filter (fun p => endpointEligible p && !podIsReady p)).map mkEndpointAddress) := by
  obtain ⟨h1, h2, h3, h4, h5, h6, h7⟩ := C7_phase_eligibility mixedPods "200ms" "10%"
    "stress-ng" 30 1 false (fun _ => true) 1 [0] (fun _ => false) (fun _ => "Failed")
  exact ⟨h1, h2, h3 "pod3" (by decide), h4, h5, h6, h7⟩

/-- A pre-existing ephemeral container on the target pod. -/
def existingCtr : EphemeralContainer := ⟨"app-sidecar", "busybox", [], none⟩

/-- The target pod of the C8 counterexample, which already carries one
ephemeral container. -/
def podWithExisting : Pod :=
  ⟨"pod1", "default", "u1", "Running", "10.0.0.1", [], [existingCtr]⟩

/-- C8 counterexample: against a pod that already has one ephemeral
container, the delivered latency patch body carries only the single new
container — not the existing list plus the new one, as the claim
states. -/
theorem C8_counterexample :
    (injectLatencyToPod "200ms" 30 1 false false).2 =
      some ⟨[latencyContainer "200ms" 30 1]⟩ ∧
    (⟨[latencyContainer "200ms" 30 1]⟩ : PatchBody) ≠
      ⟨podWithExisting.ephemeralContainers ++ [latencyContainer "200ms" 30 1]⟩ := by
  refine ⟨rfl, ?_⟩
  intro h
  have hlen := congrArg (fun b => b.ephemeralContainers.length) h
  simp [podWithExisting, existingCtr] at hlen

/-- C8 (amended): each delivered fault-injection patch body sets
`spec.ephemeralContainers` to the singleton list holding just the one
new container (the server-side strategic merge appends it to the
existing list; the client never reads the pod's current containers); the
resources block is attached for cpustress only — the latency and
packetloss containers carry none. -/
theorem C8_patch_body_contents (delay loss method : String) (d n : Nat) (pf : Bool) :
    (injectLatencyToPod delay d n false pf).2 =
      some ⟨[latencyContainer delay d n]⟩ ∧
    (latencyContainer delay d n).resources = none ∧
    (injectPacketLossToPod loss d n false pf).2 =
      some ⟨[packetLossContainer loss d n]⟩ ∧
    (packetLossContainer loss d n).resources = none ∧
    (∀ ctr, cpuStressContainer method d n = .ok ctr →
      ctr.resources = some cpuStressResources ∧
      (injectCPUStressToPod method d n false pf).2 = some ⟨[ctr]⟩) := by
  refine ⟨?_, rfl, ?_, rfl, ?_⟩
  · cases pf <;> rfl
  · cases pf <;> rfl
  · intro ctr h
    refine ⟨?_, ?_⟩
    · unfold cpuStressContainer at h
      split at h
      · injection h with h2; subst h2; rfl
      · injection h with h2; subst h2; rfl
      · exact Except.noConfusion h
    · simp only [injectCPUStressToPod, h]
      cases pf <;> rfl

/-- The stress-ng container at duration 30 and unix time 1. -/
def stressCtr : EphemeralContainer :=
  ⟨"tipsy-cpu-stress-1", "ghcr.io/chaos-tools/stress-ng:latest",
   ["stress-ng", "--cpu", "1", "--timeout", "30s"], some cpuStressResources⟩

/-- Witness for the amended C8 at concrete inputs, including the
stress-ng container. -/
theorem C8_patch_body_contents_witness :
    (injectLatencyToPod "200ms" 30 1 false false).2 =
      some ⟨[latencyContainer "200ms" 30 1]⟩ ∧
    (latencyContainer "200ms" 30 1).resources = none ∧
    (injectPacketLossToPod "10%" 30 1 false false).2 =
      some ⟨[packetLossContainer "10%" 30 1]⟩ ∧
    (packetLossContainer "10%" 30 1).resources = none ∧
    stressCtr.resources = some cpuStressResources ∧
    (injectCPUStressToPod "stress-ng" 30 1 false false).2 = some ⟨[stressCtr]⟩ := by
  obtain ⟨h1, h2, h3, h4, h5⟩ := C8_patch_body_contents "200ms" "10%" "stress-ng" 30 1 false
  obtain ⟨h6, h7⟩ := h5 stressCtr rfl
  exact ⟨h1, h2, h3, h4, h6, h7⟩

/-- Endpoints object with one live address, for the C9 statements. -/
def eps1 : Endpoints :=
  ⟨[⟨[⟨"10.0.0.1", "pod1", "default", "u1"⟩], [], [⟨"http", 80, "TCP"⟩]⟩]⟩

/-- C9: misroute with remove-all on a service with existing endpoint
addresses emits, outside dry run, exactly the trace [backup written at
the deterministic path carrying the prior Endpoints object, endpoints
updated to an empty subset list] — the backup strictly precedes the
single update; in dry-run mode no backup is written and no API mutation
occurs. -/
theorem C9_removeall_backup_then_update (home svcName ns : String)
    (servicePorts : List ServicePort) (eps : Endpoints) (selectorPods : List Pod)
    (replaceSelector : String) (_hsub : eps.subsets ≠ []) :
    MisrouteService home svcName ns servicePorts eps replaceSelector true false
        selectorPods false false =
      (.ok (), [.backupWritten (defaultBackupPath home svcName ns) eps,
                .endpointsUpdated ⟨[]⟩]) ∧
    MisrouteService home svcName ns servicePorts eps replaceSelector true true
        selectorPods false false =
      (.ok (), []) := by
  exact ⟨rfl, rfl⟩

/-- Witness for C9 at a service with one existing address. -/
theorem C9_removeall_backup_then_update_witness :
    MisrouteService "/home/user" "svc1" "default" [svcPort0] eps1 "" true false
        [] false false =
      (.ok (), [.backupWritten (defaultBackupPath "/home/user" "svc1" "default") eps1,
                .endpointsUpdated ⟨[]⟩]) ∧
    MisrouteService "/home/user" "svc1" "default" [svcPort0] eps1 "" true true
        [] false false =
      (.ok (), []) :=
  C9_removeall_backup_then_update "/home/user" "svc1" "default" [svcPort0] eps1 []
    "" (by decide)

end Tipsy
